import Mathlib

/-!
Verification of the Absurd durable task-execution SDK against its
natural-language specification.  The repository ships only the TypeScript
test-suite for the SDK under src/; the SDK implementation itself
(sdks/typescript/src/index.ts) and the SQL schema are not part of the
source tree given here, so the execution engine below is modelled from the
specification (spec.md), with the test files used to pin concrete
behaviour the spec leaves open.
-/

namespace Absurd

/-- Structured (JSON-like) parameter, payload and event values.
Pairs encode records and lists; this is enough for every scenario in the
test-suite (step results, combined payloads, event payloads). -/
inductive Val where
  | vnull : Val
  | vnat : Nat → Val
  | vstr : String → Val
  | vpair : Val → Val → Val
deriving DecidableEq

/-- Task lifecycle states (spec §3, data model table). -/
inductive TState where
  | pending
  | running
  | sleeping
  | completed
  | failed
  | cancelled
deriving DecidableEq

/-- Run lifecycle states (spec §3, data model table). -/
inductive RState where
  | pending
  | running
  | sleeping
  | completed
  | failed
deriving DecidableEq

/-- Modelled from the spec: a row of the task table `t_<queue>` (spec §3).
The SDK implementation and the SQL schema are not under src/, so the
persistent entities are reconstructed from the spec data-model table. -/
structure TaskRow where
  taskId : Nat
  name : String
  params : Val
  queue : String
  maxAttempts : Nat
  state : TState
  attempts : Nat
  completedPayload : Option Val
  lastAttemptRun : Option Nat
deriving DecidableEq

/-- Modelled from the spec: a row of the run table `r_<queue>` (spec §3). -/
structure RunRow where
  runId : Nat
  taskId : Nat
  attempt : Nat
  state : RState
  availableAt : Nat
  claimedBy : Option String
  claimExpiresAt : Option Nat
  startedAt : Option Nat
  completedAt : Option Nat
  failedAt : Option Nat
  result : Option Val
  failureMsg : Option String
  wakeEvent : Option String
  eventPayload : Option (String × Val)
deriving DecidableEq

/-- Modelled from the spec: a row of the checkpoint table `c_<queue>`
(spec §3); the list order in `Sys.checkpoints` is the write order. -/
structure CheckpointRow where
  taskId : Nat
  checkpointName : String
  state : Val
  ownerRunId : Nat
deriving DecidableEq

/-- Modelled from the spec: a row of the waiter table `w_<queue>` (spec §3). -/
structure WaiterRow where
  taskId : Nat
  runId : Nat
  eventName : String
deriving DecidableEq

/-- Registry entry for a task name (spec §4.1): default options and an
optional bound queue.  The handler itself is kept in a separate
environment so that the system state stays decidable. -/
structure TaskReg where
  defaultMaxAttempts : Option Nat
  boundQueue : Option String
deriving DecidableEq

/-- Modelled from the spec: the whole observable state of one Absurd
installation — the datastore tables plus the façade clock and registry.
Time is a natural-number clock (spec §6.3: all timestamps come from the
datastore clock, which tests may set). `execLog` records the canonical
name of every step body that actually ran, in order; it is the model of
the `executed` / `executionCount` instrumentation in the test-suite. -/
structure Sys where
  now : Nat
  nextId : Nat
  defaultQueue : String
  registry : List (String × TaskReg)
  tasks : List TaskRow
  runs : List RunRow
  checkpoints : List CheckpointRow
  events : List (String × Val)
  waiters : List WaiterRow
  execLog : List String
deriving DecidableEq

/-- Association-list lookup keyed by strings (registry lookups). -/
def lookupAssoc {α : Type} (key : String) : List (String × α) → Option α
  | [] => none
  | p :: rest => if p.1 = key then some p.2 else lookupAssoc key rest

/-- Find a task row by id. -/
def findTaskIn : List TaskRow → Nat → Option TaskRow
  | [], _ => none
  | t :: ts, tid => if t.taskId = tid then some t else findTaskIn ts tid

/-- Find a run row by id. -/
def findRunIn : List RunRow → Nat → Option RunRow
  | [], _ => none
  | r :: rs, rid => if r.runId = rid then some r else findRunIn rs rid

/-- Apply an update to every task row with the given id. -/
def updateTask (tid : Nat) (f : TaskRow → TaskRow) (ts : List TaskRow) : List TaskRow :=
  ts.map (fun t => if t.taskId = tid then f t else t)

/-- Apply an update to every run row with the given id. -/
def updateRun (rid : Nat) (f : RunRow → RunRow) (rs : List RunRow) : List RunRow :=
  rs.map (fun r => if r.runId = rid then f r else r)

/-- Task state observed through `getTask` (spec §4.7). -/
def taskStateOf (s : Sys) (tid : Nat) : Option TState :=
  (findTaskIn s.tasks tid).map TaskRow.state

/-- Completed payload observed through `getTask`. -/
def completedPayloadOf (s : Sys) (tid : Nat) : Option (Option Val) :=
  (findTaskIn s.tasks tid).map TaskRow.completedPayload

/-- Attempt counter observed through `getTask`. -/
def attemptsOf (s : Sys) (tid : Nat) : Option Nat :=
  (findTaskIn s.tasks tid).map TaskRow.attempts

/-- Max-attempts policy recorded on the task row. -/
def maxAttemptsOf (s : Sys) (tid : Nat) : Option Nat :=
  (findTaskIn s.tasks tid).map TaskRow.maxAttempts

/-- Run state observed through `getRun`. -/
def runStateOf (s : Sys) (rid : Nat) : Option RState :=
  (findRunIn s.runs rid).map RunRow.state

/-- Started-at timestamp observed through `getRun`. -/
def runStartedAtOf (s : Sys) (rid : Nat) : Option (Option Nat) :=
  (findRunIn s.runs rid).map RunRow.startedAt

/-- Failure-reason message observed through `getRun`. -/
def runFailureMsgOf (s : Sys) (rid : Nat) : Option (Option String) :=
  (findRunIn s.runs rid).map RunRow.failureMsg

/-- Available-at timestamp observed through `getRun`. -/
def runAvailableAtOf (s : Sys) (rid : Nat) : Option Nat :=
  (findRunIn s.runs rid).map RunRow.availableAt

/-- The checkpoint names recorded for a task, in write order (the
test-suite reads them ordered by `updated_at ASC`). -/
def checkpointNames (s : Sys) (tid : Nat) : List String :=
  (s.checkpoints.filter (fun c => c.taskId == tid)).map CheckpointRow.checkpointName

/-- The (name, state) pairs of the checkpoints of a task, in write order. -/
def checkpointsOf (s : Sys) (tid : Nat) : List (String × Val) :=
  (s.checkpoints.filter (fun c => c.taskId == tid)).map
    (fun c => (c.checkpointName, c.state))

/-- An empty installation with a given façade default queue and registry. -/
def initSys (q : String) (reg : List (String × TaskReg)) : Sys :=
  { now := 0, nextId := 0, defaultQueue := q, registry := reg,
    tasks := [], runs := [], checkpoints := [], events := [],
    waiters := [], execLog := [] }

/-- Options accepted by `spawn` (spec §4.7); the fields not needed by any
claim (retryStrategy, cancellation, headers) are omitted. -/
structure SpawnOpts where
  queue : Option String
  maxAttempts : Option Nat
  runAt : Option Nat
  runAfter : Option Nat
deriving DecidableEq

/-- Spawn options with every field absent. -/
def noOpts : SpawnOpts := ⟨none, none, none, none⟩

/-- Configuration errors raised synchronously by `spawn` (spec §4.1, §7). -/
inductive SpawnError where
  | unregisteredTask
  | queueMismatch
deriving DecidableEq

/-- The triple returned by a successful `spawn` (spec §4.7). -/
structure SpawnResult where
  taskID : Nat
  runID : Nat
  attempt : Nat
deriving DecidableEq

/-- Modelled from the spec: effective `max_attempts` is
`opts.maxAttempts ?? registry.default_max_attempts ?? 1` (spec §4.1). -/
def effectiveMaxAttempts (optsMax regDefault : Option Nat) : Nat :=
  optsMax.getD (regDefault.getD 1)

/-- Modelled from the spec: `runAt` and `runAfter` both set the initial
`available_at`; `runAt` takes precedence if both are present (spec §4.1). -/
def initialAvailableAt (now : Nat) (opts : SpawnOpts) : Nat :=
  opts.runAt.getD (now + opts.runAfter.getD 0)

/-- The task row a spawn inserts. -/
def freshTask (s : Sys) (name : String) (params : Val) (opts : SpawnOpts)
    (regDefault : Option Nat) (queue : String) : TaskRow :=
  { taskId := s.nextId, name := name, params := params, queue := queue,
    maxAttempts := effectiveMaxAttempts opts.maxAttempts regDefault,
    state := .pending, attempts := 0, completedPayload := none,
    lastAttemptRun := none }

/-- The first run row a spawn inserts (attempt 1, pending, available at
the time computed from runAt / runAfter). -/
def freshRun (s : Sys) (opts : SpawnOpts) : RunRow :=
  { runId := s.nextId + 1, taskId := s.nextId, attempt := 1, state := .pending,
    availableAt := initialAvailableAt s.now opts, claimedBy := none,
    claimExpiresAt := none, startedAt := none, completedAt := none,
    failedAt := none, result := none, failureMsg := none,
    wakeEvent := none, eventPayload := none }

/-- Insert the task row and its first run row for a validated spawn. -/
def spawnInto (s : Sys) (name : String) (params : Val) (opts : SpawnOpts)
    (regDefault : Option Nat) (queue : String) : SpawnResult × Sys :=
  (⟨s.nextId, s.nextId + 1, 1⟩,
    { s with nextId := s.nextId + 2,
             tasks := s.tasks ++ [freshTask s name params opts regDefault queue],
             runs := s.runs ++ [freshRun s opts] })

/-- Modelled from the spec: `spawn(name, params, opts)` (spec §4.1).  If
`name` is unregistered and no queue override is given, fail with
`UnregisteredTask`; if `name` is bound to a queue and the override
disagrees, fail with `QueueMismatch`; otherwise create the task and its
first run on the effective queue `opts.queue ?? bound_queue ?? default`. -/
def spawn (s : Sys) (name : String) (params : Val) (opts : SpawnOpts) :
    Except SpawnError (SpawnResult × Sys) :=
  match lookupAssoc name s.registry with
  | none =>
    match opts.queue with
    | none => .error .unregisteredTask
    | some q => .ok (spawnInto s name params opts none q)
  | some reg =>
    match reg.boundQueue with
    | some bq =>
      match opts.queue with
      | some q =>
        if q = bq then .ok (spawnInto s name params opts reg.defaultMaxAttempts bq)
        else .error .queueMismatch
      | none => .ok (spawnInto s name params opts reg.defaultMaxAttempts bq)
    | none =>
      .ok (spawnInto s name params opts reg.defaultMaxAttempts
        (opts.queue.getD s.defaultQueue))

/-- Total wrapper of `spawn` on the state: on a configuration error the
datastore is untouched and the caller keeps the old state. -/
def spawnSys (s : Sys) (name : String) (params : Val) (opts : SpawnOpts) : Sys :=
  match spawn s name params opts with
  | .ok (_, s2) => s2
  | .error _ => s

/-- The spawn result, defaulting when spawn fails (scenario plumbing; the
scenarios below only use it where the spawn provably succeeds). -/
def spawnRes (s : Sys) (name : String) (params : Val) (opts : SpawnOpts) : SpawnResult :=
  match spawn s name params opts with
  | .ok (r, _) => r
  | .error _ => ⟨0, 0, 0⟩

/-- A claimed run as returned by `claimTasks` (spec §6.2). -/
structure ClaimedTask where
  task_id : Nat
  run_id : Nat
  attempt : Nat
  task_name : String
  params : Val
deriving DecidableEq

/-- Modelled from the spec: the runs eligible for claiming — state
pending and `available_at ≤ now` (spec §5, Ordering of claims). -/
def eligibleRuns (s : Sys) : List RunRow :=
  s.runs.filter (fun r => r.state == RState.pending && r.availableAt ≤ s.now)

/-- The run-row side of marking a claim: move to `running`, record the
worker, lease expiry and start time. -/
def claimRunUpdate (now claimTimeout : Nat) (workerId : String) (r : RunRow) : RunRow :=
  { r with state := .running, startedAt := some now,
           claimedBy := some workerId, claimExpiresAt := some (now + claimTimeout) }

/-- The task-row side of marking a claim. -/
def claimTaskUpdate (r : RunRow) (t : TaskRow) : TaskRow :=
  { t with state := .running, attempts := r.attempt, lastAttemptRun := some r.runId }

/-- Mark one claimed run: run and task move to `running`, the run records
the worker and lease expiry and its start time, the task records the
attempt counter and last attempt run (spec §3, §6.2 claim_tasks). -/
def markClaimed (claimTimeout : Nat) (workerId : String) (s : Sys) (r : RunRow) : Sys :=
  { s with
    runs := updateRun r.runId (claimRunUpdate s.now claimTimeout workerId) s.runs,
    tasks := updateTask r.taskId (claimTaskUpdate r) s.tasks }

/-- Modelled from the spec: `claimTasks({batchSize, claimTimeout,
workerId})` claims up to `batchSize` eligible runs and returns the claimed
triples together with task name and params (spec §4.7, §6.2). -/
def claimTasks (s : Sys) (batchSize claimTimeout : Nat) (workerId : String) :
    List ClaimedTask × Sys :=
  let chosen := (eligibleRuns s).take batchSize
  let claimed := chosen.map (fun r =>
    { task_id := r.taskId, run_id := r.runId, attempt := r.attempt,
      task_name := ((findTaskIn s.tasks r.taskId).map TaskRow.name).getD "",
      params := ((findTaskIn s.tasks r.taskId).map TaskRow.params).getD .vnull })
  (claimed, chosen.foldl (markClaimed claimTimeout workerId) s)

/-- Deep embedding of a handler invocation: the program a handler runs
for one attempt.  `step` carries the body outcome (a value or a thrown
error message) and the continuation on the step value; `awaitEvt` carries
the continuation on the event payload (spec §4.2, §6.1). -/
inductive HProg where
  | ret : Val → HProg
  | raise : String → HProg
  | step : String → Except String Val → (Val → HProg) → HProg
  | awaitEvt : String → (Val → HProg) → HProg

/-- Outcome of one handler invocation as seen by the Execution Engine:
returned value, thrown error, or the Suspend signal (spec §4.3, §4.4). -/
inductive Outcome where
  | completed : Val → Outcome
  | failed : String → Outcome
  | suspended : String → Outcome
deriving DecidableEq

/-- Modelled from the spec: canonical checkpoint name of a step occurrence
given how many occurrences of the same name preceded it in this run —
`name` for the first, `name#k` for the k-th (spec §3 invariants, §4.2). -/
def canonicalName (name : String) (priorCount : Nat) : String :=
  if priorCount = 0 then name else name ++ "#" ++ toString (priorCount + 1)

/-- Occurrences of a step name seen so far in this run (the Step Context
name_counts map, spec §4.2). -/
def getCount (name : String) (counts : List (String × Nat)) : Nat :=
  (lookupAssoc name counts).getD 0

/-- Record one more occurrence of a step name in the name_counts map. -/
def bumpCount (name : String) : List (String × Nat) → List (String × Nat)
  | [] => [(name, 1)]
  | p :: rest =>
    if p.1 = name then (p.1, p.2 + 1) :: rest else p :: bumpCount name rest

/-- Find the checkpoint row of a task with a given canonical name. -/
def findCheckpointIn : List CheckpointRow → Nat → String → Option CheckpointRow
  | [], _, _ => none
  | c :: cs, tid, cname =>
    if c.taskId = tid ∧ c.checkpointName = cname then some c
    else findCheckpointIn cs tid cname

/-- Find the checkpoint of a task with a given canonical name. -/
def findCheckpoint (s : Sys) (tid : Nat) (cname : String) : Option CheckpointRow :=
  findCheckpointIn s.checkpoints tid cname

/-- Consume the first cached event with the given name, FIFO by emission
(spec §5, Ordering of event consumption). -/
def consumeEvent (name : String) : List (String × Val) →
    Option (Val × List (String × Val))
  | [] => none
  | (n, p) :: rest =>
    if n = name then some (p, rest)
    else
      match consumeEvent name rest with
      | none => none
      | some (v, rest2) => some (v, (n, p) :: rest2)

/-- Take the payload already delivered to this run by a wake-up, when it
matches the awaited event name. -/
def takeDelivered (s : Sys) (rid : Nat) (name : String) : Option (Val × Sys) :=
  match findRunIn s.runs rid with
  | none => none
  | some ru =>
    match ru.eventPayload with
    | none => none
    | some (en, p) =>
      if en = name then
        let runs2 := updateRun rid (fun r => { r with eventPayload := none }) s.runs
        some (p, { s with runs := runs2 })
      else none

/-- Take a cached event with the given name out of the event table. -/
def takeCached (s : Sys) (name : String) : Option (Val × Sys) :=
  match consumeEvent name s.events with
  | none => none
  | some (p, rest) => some (p, { s with events := rest })

/-- The payload `awaitEvent(name)` returns synchronously, if any: a
payload delivered by a wake-up, else a cached event (spec §4.2 step 1). -/
def awaitSource (s : Sys) (rid : Nat) (name : String) : Option (Val × Sys) :=
  match takeDelivered s rid name with
  | some r => some r
  | none => takeCached s name

/-- Modelled from the spec: the Step Context interpreter for one handler
invocation (spec §4.2).  `step`: compute the canonical name from the
per-run occurrence counter; on a checkpoint hit return the stored state
without running the body; on a miss run the body, and on success write the
checkpoint and continue, while a thrown body error is re-raised unchanged
with no checkpoint written.  `awaitEvt`: consume a delivered or cached
event synchronously, else park the run as a waiter, move run and task to
`sleeping` and raise the Suspend signal.  Every executed step body is
appended to `execLog` under its canonical name. -/
def runProg (tid rid : Nat) : HProg → Sys → List (String × Nat) → Sys × Outcome
  | .ret v, s, _ => (s, .completed v)
  | .raise msg, s, _ => (s, .failed msg)
  | .step name body k, s, counts =>
    let prior := getCount name counts
    let cname := canonicalName name prior
    let counts2 := bumpCount name counts
    match findCheckpoint s tid cname with
    | some c => runProg tid rid (k c.state) s counts2
    | none =>
      match body with
      | .ok v =>
        runProg tid rid (k v)
          { s with checkpoints := s.checkpoints ++ [⟨tid, cname, v, rid⟩],
                   execLog := s.execLog ++ [cname] } counts2
      | .error e => ({ s with execLog := s.execLog ++ [cname] }, .failed e)
  | .awaitEvt name k, s, counts =>
    match awaitSource s rid name with
    | some (p, s2) => runProg tid rid (k p) s2 counts
    | none =>
      ({ s with
          runs := updateRun rid
            (fun r => { r with state := .sleeping, wakeEvent := some name,
                               claimedBy := none, claimExpiresAt := none }) s.runs,
          tasks := updateTask tid (fun t => { t with state := .sleeping }) s.tasks,
          waiters := s.waiters ++ [⟨tid, rid, name⟩] },
        .suspended name)

/-- Modelled from the spec: the retry delay before a failed attempt is
re-enqueued.  Spec §4.3 sketches an exponential default but §9 states the
exact default is not pinned in the source; the test-suite re-claims the
retry run in an immediately following `workBatch` without advancing time,
so the delay is zero. -/
def retryDelay : Nat := 0

/-- Modelled from the spec: `complete_run` — the run records its result
and completion time, the task moves to `completed` with the payload
(spec §4.3 outcome "Returns value V"). -/
def completeRun (s : Sys) (c : ClaimedTask) (v : Val) : Sys :=
  { s with
    runs := updateRun c.run_id
      (fun r => { r with state := .completed, completedAt := some s.now,
                         result := some v }) s.runs,
    tasks := updateTask c.task_id
      (fun t => { t with state := .completed, completedPayload := some v }) s.tasks }

/-- Modelled from the spec: `fail_run` — the run records the failure
reason; if attempts remain a fresh pending run is enqueued and the task
stays retryable, else the task moves to `failed` (spec §4.3 outcome
"Raises any other error E", §3 invariant on `failed`). -/
def handleFailure (s : Sys) (c : ClaimedTask) (msg : String) : Sys :=
  let runs2 := updateRun c.run_id
    (fun r => { r with state := .failed, failedAt := some s.now,
                       failureMsg := some msg }) s.runs
  let s2 := { s with runs := runs2 }
  match findTaskIn s2.tasks c.task_id with
  | none => s2
  | some t =>
    if c.attempt < t.maxAttempts then
      { s2 with
        nextId := s2.nextId + 1,
        runs := s2.runs ++
          [{ runId := s2.nextId, taskId := c.task_id, attempt := c.attempt + 1,
             state := .pending, availableAt := s2.now + retryDelay,
             claimedBy := none, claimExpiresAt := none, startedAt := none,
             completedAt := none, failedAt := none, result := none,
             failureMsg := none, wakeEvent := none, eventPayload := none }],
        tasks := updateTask c.task_id (fun tk => { tk with state := .pending }) s2.tasks }
    else
      { s2 with tasks := updateTask c.task_id (fun tk => { tk with state := .failed }) s2.tasks }

/-- A handler environment: task name to (params, attempt) to the program
run for that invocation.  Kept outside `Sys` so the state is decidable. -/
def Handlers : Type := String → Option (Val → Nat → HProg)

/-- Modelled from the spec: `executeTask` — look up the handler, run it
through the Step Context, and translate its outcome into complete, fail
or nothing (the suspension already persisted the sleeping state)
(spec §4.3, §4.4). -/
def executeTask (H : Handlers) (s : Sys) (c : ClaimedTask) : Sys :=
  match H c.task_name with
  | none => handleFailure s c "Task not registered"
  | some h =>
    match runProg c.task_id c.run_id (h c.params c.attempt) s [] with
    | (s2, .completed v) => completeRun s2 c v
    | (s2, .failed e) => handleFailure s2 c e
    | (s2, .suspended _) => s2

/-- Modelled from the spec: `workBatch(workerId, claimTimeout, batchSize)`
— claim up to `batchSize` runs and execute each sequentially in one pass,
returning the number of claims processed (spec §4.6). -/
def workBatch (H : Handlers) (s : Sys) (workerId : String)
    (claimTimeout batchSize : Nat) : Nat × Sys :=
  let (claimed, s1) := claimTasks s batchSize claimTimeout workerId
  (claimed.length, claimed.foldl (executeTask H) s1)

/-- Modelled from the spec: `emitEvent(name, payload)` — if a waiter for
the event exists, wake it: remove the waiter, deliver the payload to its
run and make run and task claimable again; otherwise cache the event
(spec §3 Event/Waiter lifecycle, §4.2). -/
def findWaiter (name : String) : List WaiterRow → Option WaiterRow
  | [] => none
  | w :: rest => if w.eventName = name then some w else findWaiter name rest

/-- Remove the waiter row of a given run. -/
def removeWaiter (rid : Nat) (ws : List WaiterRow) : List WaiterRow :=
  ws.filter (fun w => !(w.runId == rid))

/-- Modelled from the spec: event emission (spec §4.2, §4.7). -/
def emitEvent (s : Sys) (name : String) (payload : Val) : Sys :=
  match findWaiter name s.waiters with
  | none => { s with events := s.events ++ [(name, payload)] }
  | some w =>
    { s with
      waiters := removeWaiter w.runId s.waiters,
      runs := updateRun w.runId
        (fun r => { r with state := .pending, wakeEvent := none,
                           eventPayload := some (name, payload),
                           availableAt := s.now }) s.runs,
      tasks := updateTask w.taskId (fun t => { t with state := .pending }) s.tasks }

/-! ## General lemmas about row lookup and update -/

/-- Updating task rows of one id commutes with looking that id up, as
long as the update preserves the id. -/
theorem findTaskIn_updateTask (ts : List TaskRow) (tid : Nat) (f : TaskRow → TaskRow)
    (hf : ∀ t, (f t).taskId = t.taskId) :
    findTaskIn (updateTask tid f ts) tid = (findTaskIn ts tid).map f := by
  induction ts with
  | nil => simp [findTaskIn, updateTask]
  | cons t ts ih =>
    by_cases h : t.taskId = tid
    · simp [findTaskIn, updateTask, h, hf]
    · simpa [findTaskIn, updateTask, h, hf] using ih

/-- Updating task rows of a different id leaves a lookup unchanged, as
long as the update preserves the id. -/
theorem findTaskIn_updateTask_ne (ts : List TaskRow) (tid tid2 : Nat)
    (f : TaskRow → TaskRow) (hf : ∀ t, (f t).taskId = t.taskId) (h : tid ≠ tid2) :
    findTaskIn (updateTask tid2 f ts) tid = findTaskIn ts tid := by
  induction ts with
  | nil => simp [findTaskIn, updateTask]
  | cons t ts ih =>
    by_cases h2 : t.taskId = tid2
    · simpa [findTaskIn, updateTask, h2, hf, (Ne.symm h : tid2 ≠ tid)] using ih
    · simp only [updateTask, List.map_cons] at ih ⊢
      simp [findTaskIn, h2, hf, ih]

/-- Updating run rows of one id commutes with looking that id up, as
long as the update preserves the id. -/
theorem findRunIn_updateRun (rs : List RunRow) (rid : Nat) (f : RunRow → RunRow)
    (hf : ∀ r, (f r).runId = r.runId) :
    findRunIn (updateRun rid f rs) rid = (findRunIn rs rid).map f := by
  induction rs with
  | nil => simp [findRunIn, updateRun]
  | cons r rs ih =>
    by_cases h : r.runId = rid
    · simp [findRunIn, updateRun, h, hf]
    · simpa [findRunIn, updateRun, h, hf] using ih

/-- Updating run rows of a different id leaves a lookup unchanged, as
long as the update preserves the id. -/
theorem findRunIn_updateRun_ne (rs : List RunRow) (rid rid2 : Nat)
    (f : RunRow → RunRow) (hf : ∀ r, (f r).runId = r.runId) (h : rid ≠ rid2) :
    findRunIn (updateRun rid2 f rs) rid = findRunIn rs rid := by
  induction rs with
  | nil => simp [findRunIn, updateRun]
  | cons r rs ih =>
    by_cases h2 : r.runId = rid2
    · simpa [findRunIn, updateRun, h2, hf, (Ne.symm h : rid2 ≠ rid)] using ih
    · simp only [updateRun, List.map_cons] at ih ⊢
      simp [findRunIn, h2, hf, ih]

/-! ## Scenario: multi-step retry (step.test.ts, test-multi-step-retry) -/

/-- The test-multi-step-retry handler: three sequential steps, throwing
between step2 and step3 on attempt 1 (step.test.ts lines 79-133). -/
def multiStepHandler (attempt : Nat) : HProg :=
  .step "step1" (.ok (.vstr "result1")) (fun v1 =>
  .step "step2" (.ok (.vstr "result2")) (fun v2 =>
  if attempt = 1 then .raise "Fail before step3"
  else .step "step3" (.ok (.vstr "result3")) (fun v3 =>
  .ret (.vpair v1 (.vpair v2 (.vpair v3 (.vnat attempt)))))))

/-- Handler environment for the multi-step retry scenario. -/
def c1Handlers : Handlers := fun n =>
  if n = "test-multi-step-retry" then some (fun _ a => multiStepHandler a) else none

/-- Registry for the scenario: defaultMaxAttempts 2, no bound queue. -/
def c1Reg : List (String × TaskReg) := [("test-multi-step-retry", ⟨some 2, none⟩)]

/-- State after spawning the multi-step task into a fresh installation. -/
def c1Start : Sys :=
  spawnSys (initSys "q" c1Reg) "test-multi-step-retry" .vnull noOpts

/-- State after the first work batch (attempt 1 fails before step3). -/
def c1AfterBatch1 : Sys := (workBatch c1Handlers c1Start "w" 60 1).2

/-- State after the second work batch (attempt 2 completes). -/
def c1AfterBatch2 : Sys := (workBatch c1Handlers c1AfterBatch1 "w" 60 1).2

/-! ## Scenario: repeated step names (step.test.ts, test-step-dedup) -/

/-- The test-step-dedup handler: three occurrences of the same step name
in a loop, bodies returning i * 10 (step.test.ts lines 135-165). -/
def loopHandler : HProg :=
  .step "loop-step" (.ok (.vnat 0)) (fun r1 =>
  .step "loop-step" (.ok (.vnat 10)) (fun r2 =>
  .step "loop-step" (.ok (.vnat 20)) (fun r3 =>
  .ret (.vpair r1 (.vpair r2 (.vpair r3 .vnull))))))

/-- Handler environment for the dedup scenario. -/
def c4Handlers : Handlers := fun n =>
  if n = "test-step-dedup" then some (fun _ _ => loopHandler) else none

/-- State after spawning the dedup task into a fresh installation. -/
def c4Start : Sys :=
  spawnSys (initSys "q" [("test-step-dedup", ⟨none, none⟩)])
    "test-step-dedup" .vnull noOpts

/-- State after one work batch runs the dedup task to completion. -/
def c4Final : Sys := (workBatch c4Handlers c4Start "w" 60 1).2

/-! ## Scenario: step result cached across retries (step.test.ts, test-step-cache) -/

/-- A handler that runs one step successfully and then throws after the
step on attempt 1, returning a function of the step value on attempt 2
(the shape of test-step-cache, step.test.ts lines 40-77, generalised over
the step name, step value, error message and result function). -/
def cacheStepHandler (name msg : String) (v : Val) (f : Val → Val) (attempt : Nat) : HProg :=
  .step name (.ok v) (fun x => if attempt = 1 then .raise msg else .ret (f x))

/-- Handler environment for the step-cache scenario. -/
def c2Handlers (name msg : String) (v : Val) (f : Val → Val) : Handlers := fun n =>
  if n = "test-step-cache" then some (fun _ a => cacheStepHandler name msg v f a) else none

/-- State after spawning the step-cache task (defaultMaxAttempts 2). -/
def c2Start : Sys :=
  spawnSys (initSys "q" [("test-step-cache", ⟨some 2, none⟩)]) "test-step-cache" .vnull noOpts

/-- State after the first work batch of the step-cache scenario. -/
def c2After1 (name msg : String) (v : Val) (f : Val → Val) : Sys :=
  (workBatch (c2Handlers name msg v f) c2Start "w" 60 1).2

/-- State after the second work batch of the step-cache scenario. -/
def c2After2 (name msg : String) (v : Val) (f : Val → Val) : Sys :=
  (workBatch (c2Handlers name msg v f) (c2After1 name msg v f) "w" 60 1).2

/-! ## Scenario: failed step writes no checkpoint (step.test.ts, test-step-failure) -/

/-- A handler whose single step body throws on attempt 1 and succeeds on
attempt 2 (the shape of test-step-failure, step.test.ts lines 167-206,
generalised over the step name, error message and success value). -/
def failStepHandler (name msg : String) (v : Val) (attempt : Nat) : HProg :=
  .step name (if attempt = 1 then .error msg else .ok v) (fun x => .ret x)

/-- Handler environment for the failing-step scenario. -/
def c3Handlers (name msg : String) (v : Val) : Handlers := fun n =>
  if n = "test-step-failure" then some (fun _ a => failStepHandler name msg v a) else none

/-- State after spawning the failing-step task (defaultMaxAttempts 2). -/
def c3Start : Sys :=
  spawnSys (initSys "q" [("test-step-failure", ⟨some 2, none⟩)]) "test-step-failure" .vnull noOpts

/-- State after the first work batch of the failing-step scenario. -/
def c3After1 (name msg : String) (v : Val) : Sys :=
  (workBatch (c3Handlers name msg v) c3Start "w" 60 1).2

/-- State after the second work batch of the failing-step scenario. -/
def c3After2 (name msg : String) (v : Val) : Sys :=
  (workBatch (c3Handlers name msg v) (c3After1 name msg v) "w" 60 1).2

/-! ## Scenario: await event, cached and uncached (basic.test.ts) -/

/-- A handler that awaits one event and returns a function of its payload
(the shape of "emit and await event with payload" and "event emitted
before await is cached", basic.test.ts lines 606-653). -/
def awaitHandler (e : String) (f : Val → Val) : HProg :=
  .awaitEvt e (fun p => .ret (f p))

/-- Handler environment for the await-event scenarios. -/
def c5Handlers (e : String) (f : Val → Val) : Handlers := fun n =>
  if n = "test-await-event" then some (fun _ _ => awaitHandler e f) else none

/-- Registry for the await-event scenarios (no default overrides). -/
def c5Reg : List (String × TaskReg) := [("test-await-event", ⟨none, none⟩)]

/-- Cached case: the event is emitted before the task is spawned. -/
def c5CachedStart (e : String) (p : Val) : Sys :=
  spawnSys (emitEvent (initSys "q" c5Reg) e p) "test-await-event" .vnull noOpts

/-- Cached case: state after the single work batch. -/
def c5CachedFinal (e : String) (p : Val) (f : Val → Val) : Sys :=
  (workBatch (c5Handlers e f) (c5CachedStart e p) "w" 60 1).2

/-- Uncached case: the task is spawned with no event emitted yet. -/
def c5Start : Sys := spawnSys (initSys "q" c5Reg) "test-await-event" .vnull noOpts

/-- Uncached case: state after the first work batch (the run suspends). -/
def c5Sleeping (e : String) (f : Val → Val) : Sys :=
  (workBatch (c5Handlers e f) c5Start "w" 60 1).2

/-- Uncached case: state after emitting the event and running a second
work batch. -/
def c5Final (e : String) (p : Val) (f : Val → Val) : Sys :=
  (workBatch (c5Handlers e f) (emitEvent (c5Sleeping e f) e p) "w" 60 1).2

/-! ## Scenario: maxAttempts override (basic.test.ts, test-max-attempts) -/

/-- Registry for the maxAttempts scenario: defaultMaxAttempts 5. -/
def c6Reg : List (String × TaskReg) := [("test-max-attempts", ⟨some 5, none⟩)]

/-- Handler environment: the handler always throws (basic.test.ts
lines 61-86). -/
def c6Handlers : Handlers := fun n =>
  if n = "test-max-attempts" then some (fun _ _ => .raise "Always fails") else none

/-- Spawn options overriding maxAttempts to 2. -/
def c6Opts : SpawnOpts := ⟨none, some 2, none, none⟩

/-- State after spawning the always-failing task with the override. -/
def c6Start : Sys := spawnSys (initSys "q" c6Reg) "test-max-attempts" .vnull c6Opts

/-- State after the first work batch (attempt 1 fails, retry enqueued). -/
def c6After1 : Sys := (workBatch c6Handlers c6Start "w" 60 1).2

/-- State after the second work batch (attempt 2 fails terminally). -/
def c6After2 : Sys := (workBatch c6Handlers c6After1 "w" 60 1).2

/-- C1: for the three-step handler that throws between step2 and step3 on
attempt 1 with max_attempts 2: attempt 1 executes exactly the bodies of
step1 and step2; on attempt 2 step1 and step2 are checkpoint cache hits
(their bodies never run again) and only step3's body executes; afterwards
exactly the checkpoints step1, step2, step3 exist in that write order and
the completed payload combines the three step results. -/
theorem c1_multi_step_retry :
    c1AfterBatch1.execLog = ["step1", "step2"] ∧
    checkpointNames c1AfterBatch1 0 = ["step1", "step2"] ∧
    attemptsOf c1AfterBatch1 0 = some 1 ∧
    c1AfterBatch2.execLog = ["step1", "step2", "step3"] ∧
    checkpointsOf c1AfterBatch2 0 =
      [("step1", .vstr "result1"), ("step2", .vstr "result2"),
       ("step3", .vstr "result3")] ∧
    taskStateOf c1AfterBatch2 0 = some .completed ∧
    attemptsOf c1AfterBatch2 0 = some 2 ∧
    completedPayloadOf c1AfterBatch2 0 =
      some (some (.vpair (.vstr "result1") (.vpair (.vstr "result2")
        (.vpair (.vstr "result3") (.vnat 2))))) := by
  decide

/-- C4: the k-th occurrence of a step name within one run uses canonical
checkpoint name `name` for k = 1 and `name#k` for k ≥ 2 (the occurrence
with k - 1 prior occurrences); concretely, a handler calling
step("loop-step", ...) three times produces exactly the checkpoints
loop-step, loop-step#2, loop-step#3 in that order. -/
theorem c4_repeated_step_names :
    (∀ name : String, canonicalName name 0 = name) ∧
    (∀ (name : String) (k : Nat),
      canonicalName name (k + 1) = name ++ "#" ++ toString (k + 2)) ∧
    checkpointsOf c4Final 0 =
      [("loop-step", .vnat 0), ("loop-step#2", .vnat 10),
       ("loop-step#3", .vnat 20)] ∧
    c4Final.execLog = ["loop-step", "loop-step#2", "loop-step#3"] ∧
    taskStateOf c4Final 0 = some .completed ∧
    completedPayloadOf c4Final 0 =
      some (some (.vpair (.vnat 0) (.vpair (.vnat 10)
        (.vpair (.vnat 20) .vnull)))) := by
  refine ⟨fun name => by simp [canonicalName],
          fun name k => by simp [canonicalName], ?_, ?_, ?_, ?_⟩ <;>
    simp [c4Final, c4Start, c4Handlers, loopHandler, workBatch, claimTasks, executeTask,
      runProg, spawnSys, spawn, spawnInto, freshTask, freshRun, initSys, lookupAssoc, eligibleRuns, markClaimed, claimRunUpdate, claimTaskUpdate,
      noOpts, effectiveMaxAttempts, initialAvailableAt, findCheckpoint, canonicalName,
      getCount, bumpCount, findTaskIn, findRunIn, updateTask, updateRun, completeRun,
      handleFailure, checkpointsOf, taskStateOf, completedPayloadOf,
      List.filter, List.find?, List.foldl] <;>
    decide

/-- C2: for every handler that runs step(name, body) successfully and then
throws on attempt 1 and returns normally on attempt 2 (max_attempts 2):
the step body executes exactly once across both attempts (the retry is a
checkpoint hit, so the body never runs again), the task completes with
attempts = 2, and exactly one checkpoint row exists for the step. -/
theorem c2_step_cached_across_retry (name msg : String) (v : Val) (f : Val → Val) :
    (c2After1 name msg v f).execLog = [name] ∧
    (c2After2 name msg v f).execLog = [name] ∧
    taskStateOf (c2After2 name msg v f) 0 = some .completed ∧
    attemptsOf (c2After2 name msg v f) 0 = some 2 ∧
    checkpointsOf (c2After2 name msg v f) 0 = [(name, v)] ∧
    completedPayloadOf (c2After2 name msg v f) 0 = some (some (f v)) := by
  refine ⟨?_, ?_, ?_, ?_, ?_, ?_⟩ <;>
    simp [c2After2, c2After1, c2Start, c2Handlers, cacheStepHandler, workBatch, claimTasks,
      executeTask, runProg, spawnSys, spawn, spawnInto, freshTask, freshRun, initSys, lookupAssoc, eligibleRuns,
      markClaimed, claimRunUpdate, claimTaskUpdate, noOpts, effectiveMaxAttempts, initialAvailableAt, findCheckpoint, findCheckpointIn,
      canonicalName, getCount, bumpCount, findTaskIn, findRunIn, updateTask, updateRun,
      completeRun, handleFailure, retryDelay, checkpointsOf, taskStateOf, attemptsOf,
      completedPayloadOf, List.filter, List.find?, List.foldl]

/-- C3: for every step whose body throws: no checkpoint is written for it
and the error is re-raised unchanged (it becomes the recorded failure
reason of the run); on the retry the body executes again, and only after
it succeeds is a single checkpoint written with the successful value. -/
theorem c3_failed_step_no_checkpoint (name msg : String) (v : Val) :
    checkpointsOf (c3After1 name msg v) 0 = [] ∧
    (c3After1 name msg v).execLog = [name] ∧
    runFailureMsgOf (c3After1 name msg v) 1 = some (some msg) ∧
    (c3After2 name msg v).execLog = [name, name] ∧
    checkpointsOf (c3After2 name msg v) 0 = [(name, v)] ∧
    taskStateOf (c3After2 name msg v) 0 = some .completed ∧
    completedPayloadOf (c3After2 name msg v) 0 = some (some v) := by
  refine ⟨?_, ?_, ?_, ?_, ?_, ?_, ?_⟩ <;>
    simp [c3After2, c3After1, c3Start, c3Handlers, failStepHandler, workBatch, claimTasks,
      executeTask, runProg, spawnSys, spawn, spawnInto, freshTask, freshRun, initSys, lookupAssoc, eligibleRuns,
      markClaimed, claimRunUpdate, claimTaskUpdate, noOpts, effectiveMaxAttempts, initialAvailableAt, findCheckpoint, findCheckpointIn,
      canonicalName, getCount, bumpCount, findTaskIn, findRunIn, updateTask, updateRun,
      completeRun, handleFailure, retryDelay, checkpointsOf, taskStateOf, attemptsOf,
      completedPayloadOf, runFailureMsgOf, List.filter, List.find?, List.foldl]

/-- C5: for every event name and payload, emitting before the await
yields the same observed completed payload as emitting after the task
suspended.  Cached case: the task completes within the single work batch
(the run goes straight to completed, no waiter remains).  Uncached case:
the first batch leaves task and run sleeping — not failed, the Suspend
signal is not an error — and the batch after emitEvent completes the task
with the emitted payload. -/
theorem c5_event_cached_equals_delivered (e : String) (p : Val) (f : Val → Val) :
    taskStateOf (c5CachedFinal e p f) 0 = some .completed ∧
    completedPayloadOf (c5CachedFinal e p f) 0 = some (some (f p)) ∧
    runStateOf (c5CachedFinal e p f) 1 = some .completed ∧
    (c5CachedFinal e p f).waiters = [] ∧
    taskStateOf (c5Sleeping e f) 0 = some .sleeping ∧
    runStateOf (c5Sleeping e f) 1 = some .sleeping ∧
    runFailureMsgOf (c5Sleeping e f) 1 = some none ∧
    taskStateOf (c5Final e p f) 0 = some .completed ∧
    completedPayloadOf (c5Final e p f) 0 = some (some (f p)) ∧
    completedPayloadOf (c5CachedFinal e p f) 0 = completedPayloadOf (c5Final e p f) 0 := by
  refine ⟨?_, ?_, ?_, ?_, ?_, ?_, ?_, ?_, ?_, ?_⟩ <;>
    simp [c5Final, c5Sleeping, c5Start, c5CachedFinal, c5CachedStart, c5Handlers, c5Reg,
      awaitHandler, emitEvent, findWaiter, removeWaiter, consumeEvent, takeDelivered,
      takeCached, awaitSource, workBatch, claimTasks, executeTask, runProg, spawnSys,
      spawn, spawnInto, freshTask, freshRun, initSys, lookupAssoc, eligibleRuns, markClaimed, claimRunUpdate, claimTaskUpdate, noOpts,
      effectiveMaxAttempts, initialAvailableAt, findCheckpoint, findCheckpointIn,
      canonicalName, getCount, bumpCount, findTaskIn, findRunIn, updateTask, updateRun,
      completeRun, handleFailure, retryDelay, taskStateOf, runStateOf, runFailureMsgOf,
      completedPayloadOf, List.filter, List.foldl]

/-- C6: the effective max_attempts of a spawned task is opts.maxAttempts
if given, else the registered default, else 1; the always-failing task
registered with defaultMaxAttempts 5 but spawned with maxAttempts 2 ends
failed with attempts = 2 after two work batches, attempts never exceeding
max_attempts at the observed states; and in general a failing run moves
its task to failed exactly when the failure happens at
attempt = max_attempts (otherwise the task stays retryable). -/
theorem c6_effective_max_attempts :
    (∀ (q : String) (m d : Nat),
      maxAttemptsOf (spawnSys (initSys q [("t", ⟨some d, none⟩)]) "t" .vnull
        ⟨none, some m, none, none⟩) 0 = some m) ∧
    (∀ (q : String) (d : Nat),
      maxAttemptsOf (spawnSys (initSys q [("t", ⟨some d, none⟩)]) "t" .vnull noOpts) 0 =
        some d) ∧
    (∀ (q q2 : String),
      maxAttemptsOf (spawnSys (initSys q []) "t" .vnull ⟨some q2, none, none, none⟩) 0 =
        some 1) ∧
    maxAttemptsOf c6Start 0 = some 2 ∧
    attemptsOf c6Start 0 = some 0 ∧
    taskStateOf c6After1 0 = some .pending ∧
    attemptsOf c6After1 0 = some 1 ∧
    taskStateOf c6After2 0 = some .failed ∧
    attemptsOf c6After2 0 = some 2 ∧
    (∀ (s : Sys) (c : ClaimedTask) (msg : String) (t : TaskRow),
      findTaskIn s.tasks c.task_id = some t →
      (taskStateOf (handleFailure s c msg) c.task_id = some TState.failed ↔
        t.maxAttempts ≤ c.attempt)) := by
  refine ⟨?_, ?_, ?_, ?_, ?_, ?_, ?_, ?_, ?_, ?_⟩
  · intro q m d
    simp [maxAttemptsOf, spawnSys, spawn, spawnInto, freshTask, freshRun, initSys, lookupAssoc,
      effectiveMaxAttempts, findTaskIn]
  · intro q d
    simp [maxAttemptsOf, spawnSys, spawn, spawnInto, freshTask, freshRun, initSys, lookupAssoc,
      effectiveMaxAttempts, noOpts, findTaskIn]
  · intro q q2
    simp [maxAttemptsOf, spawnSys, spawn, spawnInto, freshTask, freshRun, initSys, lookupAssoc,
      effectiveMaxAttempts, findTaskIn]
  any_goals
    simp [c6After2, c6After1, c6Start, c6Handlers, c6Reg, c6Opts, workBatch, claimTasks,
      executeTask, runProg, spawnSys, spawn, spawnInto, freshTask, freshRun, initSys, lookupAssoc, eligibleRuns,
      markClaimed, claimRunUpdate, claimTaskUpdate, effectiveMaxAttempts, initialAvailableAt, findTaskIn, findRunIn,
      updateTask, updateRun, completeRun, handleFailure, retryDelay, taskStateOf,
      attemptsOf, maxAttemptsOf, List.filter, List.foldl]
  intro s c msg t ht
  have hupP := findTaskIn_updateTask s.tasks c.task_id
    (fun tk => { tk with state := TState.pending }) (fun tk => rfl)
  have hupF := findTaskIn_updateTask s.tasks c.task_id
    (fun tk => { tk with state := TState.failed }) (fun tk => rfl)
  simp only [updateTask] at hupP hupF
  by_cases hlt : c.attempt < t.maxAttempts
  · have hle : ¬ t.maxAttempts ≤ c.attempt := by omega
    simp [handleFailure, ht, hlt, hle, taskStateOf, hupP]
  · have hle : t.maxAttempts ≤ c.attempt := by omega
    simp [handleFailure, ht, hlt, hle, taskStateOf, hupF]

/-- The task row created by the C6 spawn (used by the C6 witness). -/
def c6Row : TaskRow :=
  { taskId := 0, name := "test-max-attempts", params := .vnull, queue := "q",
    maxAttempts := 2, state := .pending, attempts := 0, completedPayload := none,
    lastAttemptRun := none }

/-- Witness for C6: the general failed-transition characterisation applied
to the concrete spawned task at attempt 2 = max_attempts. -/
theorem c6_effective_max_attempts_witness :
    taskStateOf (handleFailure c6Start ⟨0, 1, 2, "x", .vnull⟩ "m") 0 = some TState.failed ↔
      c6Row.maxAttempts ≤ 2 :=
  c6_effective_max_attempts.2.2.2.2.2.2.2.2.2 c6Start ⟨0, 1, 2, "x", .vnull⟩ "m" c6Row
    (by simp [c6Start, c6Reg, c6Opts, spawnSys, spawn, spawnInto, freshTask, freshRun, initSys, lookupAssoc,
      effectiveMaxAttempts, initialAvailableAt, findTaskIn, c6Row])

/-- C7: spawn fails with UnregisteredTask exactly when the name is not in
the registry and no queue override is given, and with QueueMismatch
exactly when the name is bound to a queue and the override names a
different queue; in both failure cases no task or run row is created. -/
theorem c7_spawn_validation (s : Sys) (name : String) (params : Val) (opts : SpawnOpts) :
    (spawn s name params opts = .error .unregisteredTask ↔
      lookupAssoc name s.registry = none ∧ opts.queue = none) ∧
    (spawn s name params opts = .error .queueMismatch ↔
      ∃ reg bq q, lookupAssoc name s.registry = some reg ∧ reg.boundQueue = some bq ∧
        opts.queue = some q ∧ q ≠ bq) ∧
    (∀ err, spawn s name params opts = .error err →
      (spawnSys s name params opts).tasks = s.tasks ∧
      (spawnSys s name params opts).runs = s.runs) := by
  cases hreg : lookupAssoc name s.registry with
  | none =>
    cases hq : opts.queue with
    | none => simp [spawn, spawnSys, hreg, hq]
    | some q => simp [spawn, spawnSys, hreg, hq]
  | some reg =>
    cases hbq : reg.boundQueue with
    | none => simp [spawn, spawnSys, hreg, hbq]
    | some bq =>
      cases hq : opts.queue with
      | none => simp [spawn, spawnSys, hreg, hbq, hq]
      | some q =>
        by_cases hqb : q = bq
        · simp [spawn, spawnSys, hreg, hbq, hq, hqb]
        · refine ⟨by simp [spawn, hreg, hbq, hq, hqb], ?_, ?_⟩
          · simp only [spawn, hreg, hbq, hq, hqb]
            constructor
            · intro _
              exact ⟨reg, bq, q, by simp [hreg], by simp [hbq], by simp [hq], hqb⟩
            · intro _
              simp [hqb]
          · intro err herr
            simp [spawnSys, herr]

/-- Witness for C7: on the unregistered spawn from an empty installation
the failure case of the theorem applies and no rows are created. -/
theorem c7_spawn_validation_witness :
    (spawnSys (initSys "q" []) "t" .vnull noOpts).tasks = (initSys "q" []).tasks ∧
    (spawnSys (initSys "q" []) "t" .vnull noOpts).runs = (initSys "q" []).runs :=
  (c7_spawn_validation (initSys "q" []) "t" .vnull noOpts).2.2 .unregisteredTask
    (by simp [spawn, initSys, lookupAssoc, noOpts])

/-- Every successful spawn inserts exactly one fresh task row and one
fresh run row, leaving the clock untouched. -/
theorem spawn_ok_pair (s : Sys) (name : String) (params : Val) (opts : SpawnOpts)
    (r : SpawnResult) (s2 : Sys) (h : spawn s name params opts = .ok (r, s2)) :
    ∃ regD qq, (r, s2) = spawnInto s name params opts regD qq := by
  unfold spawn at h
  split at h
  · split at h
    · exact absurd h (by simp)
    · injection h with h2
      exact ⟨_, _, h2.symm⟩
  · split at h
    · split at h
      · split at h
        · injection h with h2
          exact ⟨_, _, h2.symm⟩
        · exact absurd h (by simp)
      · injection h with h2
        exact ⟨_, _, h2.symm⟩
    · injection h with h2
      exact ⟨_, _, h2.symm⟩

/-- Looking up an id that no row of the first list carries skips the
first list. -/
theorem findRunIn_append_of_fresh (rs rs2 : List RunRow) (rid : Nat)
    (h : ∀ ru ∈ rs, ru.runId ≠ rid) :
    findRunIn (rs ++ rs2) rid = findRunIn rs2 rid := by
  induction rs with
  | nil => simp
  | cons r rs ih =>
    have hr : r.runId ≠ rid := h r (by simp)
    rw [List.cons_append, findRunIn, if_neg hr]
    exact ih (fun ru hm => h ru (by simp [hm]))

/-- Every claimed entry of `claimTasks` comes from a pending run of the
state whose `available_at` has been reached. -/
theorem claimTasks_mem_src (sys : Sys) (bs ct : Nat) (w : String) (c : ClaimedTask)
    (hc : c ∈ (claimTasks sys bs ct w).1) :
    ∃ ru ∈ sys.runs, ru.runId = c.run_id ∧ ru.taskId = c.task_id ∧
      ru.attempt = c.attempt ∧ ru.state = RState.pending ∧ ru.availableAt ≤ sys.now := by
  simp only [claimTasks] at hc
  rcases List.mem_map.mp hc with ⟨ru, hru, hmk⟩
  have hel : ru ∈ eligibleRuns sys := List.take_subset _ _ hru
  rcases List.mem_filter.mp hel with ⟨hmem, hpred⟩
  have hps : ru.state = RState.pending ∧ ru.availableAt ≤ sys.now := by
    simpa using hpred
  exact ⟨ru, hmem, by rw [← hmk], by rw [← hmk], by rw [← hmk], hps.1, hps.2⟩

/-- C8: a task spawned with runAfter = d (and no runAt) gets its first
run enqueued with available_at = now + d, and a claim issued at any time
before that instant never returns that run. -/
theorem c8_run_after_delays_claim (s : Sys) (name : String) (params : Val)
    (opts : SpawnOpts) (d : Nat) (r : SpawnResult) (s2 : Sys)
    (hRA : opts.runAt = none) (hRAf : opts.runAfter = some d)
    (hfresh : ∀ ru ∈ s.runs, ru.runId < s.nextId)
    (hsp : spawn s name params opts = .ok (r, s2)) :
    runAvailableAtOf s2 r.runID = some (s.now + d) ∧
    ∀ t, t < s.now + d → ∀ bs ct w c,
      c ∈ (claimTasks { s2 with now := t } bs ct w).1 → c.run_id ≠ r.runID := by
  obtain ⟨regD, qq, hpair⟩ := spawn_ok_pair s name params opts r s2 hsp
  have hr : r = ⟨s.nextId, s.nextId + 1, 1⟩ := by
    rw [show r = (r, s2).1 from rfl, hpair, spawnInto]
  have hruns : s2.runs = s.runs ++ [freshRun s opts] := by
    rw [show s2 = (r, s2).2 from rfl, hpair, spawnInto]
  have hav : (freshRun s opts).availableAt = s.now + d := by
    simp [freshRun, initialAvailableAt, hRA, hRAf]
  have hrID : r.runID = s.nextId + 1 := by rw [hr]
  constructor
  · rw [runAvailableAtOf, hruns, hrID,
      findRunIn_append_of_fresh _ _ _ (fun ru hm => by have := hfresh ru hm; omega)]
    simp [findRunIn, freshRun, initialAvailableAt, hRA, hRAf]
  · intro t ht bs ct w c hc hid
    obtain ⟨ru, hmem, hrid, _, _, _, hle⟩ := claimTasks_mem_src _ bs ct w c hc
    rw [show ({ s2 with now := t } : Sys).runs = s2.runs from rfl, hruns] at hmem
    rcases List.mem_append.mp hmem with hin | hnew
    · have := hfresh ru hin
      omega
    · have hru : ru = freshRun s opts := by simpa using hnew
      rw [hru, hav] at hle
      have : ({ s2 with now := t } : Sys).now = t := rfl
      omega

/-- The state after the concrete runAfter spawn used by the C8 witness. -/
def c8S2 : Sys := spawnSys (initSys "q" []) "t" .vnull ⟨some "q", none, none, some 5⟩

/-- Witness for C8: the concrete runAfter = 5 spawn at clock 0 has its
run available at 5. -/
theorem c8_run_after_delays_claim_witness : runAvailableAtOf c8S2 1 = some (0 + 5) :=
  (c8_run_after_delays_claim (initSys "q" []) "t" .vnull ⟨some "q", none, none, some 5⟩
    5 ⟨0, 1, 1⟩ c8S2 rfl rfl (by simp [initSys]) (by rfl)).1

/-! ## Scenario: one work batch, one failing task among successes
(basic.test.ts, test-work-batch-fail) -/

/-- Handler environment: params vnat 1 means shouldFail (throws "Task
failed in batch"), anything else returns a value built from the params
(basic.test.ts lines 706-743). -/
def c10Handlers : Handlers := fun n =>
  if n = "test-work-batch-fail" then
    some (fun p _ =>
      if p = Val.vnat 1 then .raise "Task failed in batch"
      else .ret (.vpair (.vstr "ok") p))
  else none

/-- Registry for the batch-failure scenario: defaultMaxAttempts 1. -/
def c10Reg : List (String × TaskReg) := [("test-work-batch-fail", ⟨some 1, none⟩)]

/-- Three spawned tasks: ids 0, 2, 4 with params vnat 0, 1, 2 — the
middle one will throw. -/
def c10Start : Sys :=
  spawnSys (spawnSys (spawnSys (initSys "q" c10Reg)
    "test-work-batch-fail" (.vnat 0) noOpts)
    "test-work-batch-fail" (.vnat 1) noOpts)
    "test-work-batch-fail" (.vnat 2) noOpts

/-- One work batch claiming and executing all three tasks. -/
def c10Batch : Nat × Sys := workBatch c10Handlers c10Start "w" 60 3

/-- C10: a handler error in one task of a batch does not affect the other
claimed tasks: all three tasks are claimed and processed in one workBatch
call, the throwing task (max_attempts 1) ends failed with the thrown
message recorded on its last run, and the tasks before and after it in
the same batch end completed with their handlers' return values. -/
theorem c10_batch_failure_isolated :
    c10Batch.1 = 3 ∧
    taskStateOf c10Batch.2 2 = some .failed ∧
    (findTaskIn c10Batch.2.tasks 2).map TaskRow.lastAttemptRun = some (some 3) ∧
    runFailureMsgOf c10Batch.2 3 = some (some "Task failed in batch") ∧
    taskStateOf c10Batch.2 0 = some .completed ∧
    completedPayloadOf c10Batch.2 0 = some (some (.vpair (.vstr "ok") (.vnat 0))) ∧
    taskStateOf c10Batch.2 4 = some .completed ∧
    completedPayloadOf c10Batch.2 4 = some (some (.vpair (.vstr "ok") (.vnat 2))) := by
  decide

/-! ## Lemmas about claiming: every claimed run and its task move to
running -/

/-- If some row carries the looked-up run id, the lookup returns a row
with that id. -/
theorem findRunIn_eq_some_of_mem (rs : List RunRow) (rid : Nat)
    (h : ∃ ru ∈ rs, ru.runId = rid) :
    ∃ ru, findRunIn rs rid = some ru ∧ ru.runId = rid := by
  induction rs with
  | nil => simp at h
  | cons r rs ih =>
    by_cases hr : r.runId = rid
    · exact ⟨r, by simp [findRunIn, hr], hr⟩
    · rcases h with ⟨ru, hm, hid⟩
      rcases List.mem_cons.mp hm with rfl | hm2
      · exact absurd hid hr
      · rw [findRunIn, if_neg hr]
        exact ih ⟨ru, hm2, hid⟩

/-- If some row carries the looked-up task id, the lookup returns a row
with that id. -/
theorem findTaskIn_eq_some_of_mem (ts : List TaskRow) (tid : Nat)
    (h : ∃ tk ∈ ts, tk.taskId = tid) :
    ∃ tk, findTaskIn ts tid = some tk ∧ tk.taskId = tid := by
  induction ts with
  | nil => simp at h
  | cons t ts ih =>
    by_cases ht : t.taskId = tid
    · exact ⟨t, by simp [findTaskIn, ht], ht⟩
    · rcases h with ⟨tk, hm, hid⟩
      rcases List.mem_cons.mp hm with rfl | hm2
      · exact absurd hid ht
      · rw [findTaskIn, if_neg ht]
        exact ih ⟨tk, hm2, hid⟩

/-- Marking a claim does not move the clock. -/
theorem markClaimed_now (ct : Nat) (w : String) (s : Sys) (r : RunRow) :
    (markClaimed ct w s r).now = s.now := rfl

/-- Marking a claim keeps a run id present among the run rows. -/
theorem markClaimed_keeps_run (ct : Nat) (w : String) (s : Sys) (r2 : RunRow) (rid : Nat)
    (h : ∃ ru ∈ s.runs, ru.runId = rid) :
    ∃ ru ∈ (markClaimed ct w s r2).runs, ru.runId = rid := by
  rcases h with ⟨ru, hm, hid⟩
  subst hid
  refine ⟨(fun x => if x.runId = r2.runId then claimRunUpdate s.now ct w x else x) ru,
    List.mem_map.mpr ⟨ru, hm, rfl⟩, ?_⟩
  by_cases hcase : ru.runId = r2.runId <;> simp [hcase, claimRunUpdate]

/-- Marking a claim keeps a task id present among the task rows. -/
theorem markClaimed_keeps_task (ct : Nat) (w : String) (s : Sys) (r2 : RunRow) (tid : Nat)
    (h : ∃ tk ∈ s.tasks, tk.taskId = tid) :
    ∃ tk ∈ (markClaimed ct w s r2).tasks, tk.taskId = tid := by
  rcases h with ⟨tk, hm, hid⟩
  subst hid
  refine ⟨(fun x => if x.taskId = r2.taskId then claimTaskUpdate r2 x else x) tk,
    List.mem_map.mpr ⟨tk, hm, rfl⟩, ?_⟩
  by_cases hcase : tk.taskId = r2.taskId <;> simp [hcase, claimTaskUpdate]

/-- Once a run and its task are running with the start time set, marking
further claims keeps them so. -/
theorem markClaimed_preserves_running (s : Sys) (ct : Nat) (w : String) (r2 : RunRow)
    (rid tid : Nat)
    (h1 : runStateOf s rid = some .running)
    (h2 : runStartedAtOf s rid = some (some s.now))
    (h3 : taskStateOf s tid = some .running) :
    runStateOf (markClaimed ct w s r2) rid = some .running ∧
    runStartedAtOf (markClaimed ct w s r2) rid = some (some (markClaimed ct w s r2).now) ∧
    taskStateOf (markClaimed ct w s r2) tid = some .running := by
  have hnow : (markClaimed ct w s r2).now = s.now := rfl
  obtain ⟨ru, hru⟩ : ∃ ru, findRunIn s.runs rid = some ru := by
    rcases hf : findRunIn s.runs rid with _ | ru
    · rw [runStateOf, hf] at h1
      simp at h1
    · exact ⟨ru, rfl⟩
  obtain ⟨tk, htk⟩ : ∃ tk, findTaskIn s.tasks tid = some tk := by
    rcases hf : findTaskIn s.tasks tid with _ | tk
    · rw [taskStateOf, hf] at h3
      simp at h3
    · exact ⟨tk, rfl⟩
  have hruns : (markClaimed ct w s r2).runs =
      updateRun r2.runId (claimRunUpdate s.now ct w) s.runs := rfl
  have htasks : (markClaimed ct w s r2).tasks =
      updateTask r2.taskId (claimTaskUpdate r2) s.tasks := rfl
  refine ⟨?_, ?_, ?_⟩
  · by_cases hid : rid = r2.runId
    · subst hid
      rw [runStateOf, hruns,
        findRunIn_updateRun s.runs r2.runId (claimRunUpdate s.now ct w) (fun r => rfl), hru]
      rfl
    · rw [runStateOf, hruns,
        findRunIn_updateRun_ne s.runs rid r2.runId (claimRunUpdate s.now ct w)
          (fun r => rfl) hid]
      exact h1
  · rw [hnow]
    by_cases hid : rid = r2.runId
    · subst hid
      rw [runStartedAtOf, hruns,
        findRunIn_updateRun s.runs r2.runId (claimRunUpdate s.now ct w) (fun r => rfl), hru]
      rfl
    · rw [runStartedAtOf, hruns,
        findRunIn_updateRun_ne s.runs rid r2.runId (claimRunUpdate s.now ct w)
          (fun r => rfl) hid]
      exact h2
  · by_cases hid : tid = r2.taskId
    · subst hid
      rw [taskStateOf, htasks,
        findTaskIn_updateTask s.tasks r2.taskId (claimTaskUpdate r2) (fun t => rfl), htk]
      rfl
    · rw [taskStateOf, htasks,
        findTaskIn_updateTask_ne s.tasks tid r2.taskId (claimTaskUpdate r2)
          (fun t => rfl) hid]
      exact h3

/-- Marking a claim whose run and task rows exist moves both to running
and stamps the start time. -/
theorem markClaimed_sets_running (s : Sys) (ct : Nat) (w : String) (r : RunRow)
    (hex : ∃ ru ∈ s.runs, ru.runId = r.runId)
    (hexT : ∃ tk ∈ s.tasks, tk.taskId = r.taskId) :
    runStateOf (markClaimed ct w s r) r.runId = some .running ∧
    runStartedAtOf (markClaimed ct w s r) r.runId = some (some (markClaimed ct w s r).now) ∧
    taskStateOf (markClaimed ct w s r) r.taskId = some .running := by
  obtain ⟨ru, hru, hid⟩ := findRunIn_eq_some_of_mem s.runs r.runId hex
  obtain ⟨tk, htk, htid⟩ := findTaskIn_eq_some_of_mem s.tasks r.taskId hexT
  have hruns : (markClaimed ct w s r).runs =
      updateRun r.runId (claimRunUpdate s.now ct w) s.runs := rfl
  have htasks : (markClaimed ct w s r).tasks =
      updateTask r.taskId (claimTaskUpdate r) s.tasks := rfl
  refine ⟨?_, ?_, ?_⟩
  · rw [runStateOf, hruns,
      findRunIn_updateRun s.runs r.runId (claimRunUpdate s.now ct w) (fun x => rfl), hru]
    rfl
  · rw [runStartedAtOf, hruns,
      findRunIn_updateRun s.runs r.runId (claimRunUpdate s.now ct w) (fun x => rfl), hru]
    rfl
  · rw [taskStateOf, htasks,
      findTaskIn_updateTask s.tasks r.taskId (claimTaskUpdate r) (fun x => rfl), htk]
    rfl

/-- Folding the claim marks preserves a run and task already running
with the start time stamped. -/
theorem foldl_markClaimed_preserves (l : List RunRow) (s : Sys) (ct : Nat) (w : String)
    (rid tid : Nat)
    (h1 : runStateOf s rid = some .running)
    (h2 : runStartedAtOf s rid = some (some s.now))
    (h3 : taskStateOf s tid = some .running) :
    runStateOf (l.foldl (markClaimed ct w) s) rid = some .running ∧
    runStartedAtOf (l.foldl (markClaimed ct w) s) rid =
      some (some (l.foldl (markClaimed ct w) s).now) ∧
    taskStateOf (l.foldl (markClaimed ct w) s) tid = some .running := by
  induction l generalizing s with
  | nil => exact ⟨h1, h2, h3⟩
  | cons r2 l ih =>
    rw [List.foldl_cons]
    obtain ⟨q1, q2, q3⟩ := markClaimed_preserves_running s ct w r2 rid tid h1 h2 h3
    exact ih (markClaimed ct w s r2) q1 q2 q3

/-- Folding the claim marks over a list of runs moves every listed run
(and its task) to running with the start time stamped, provided their
rows exist. -/
theorem foldl_markClaimed_running (l : List RunRow) (s : Sys) (ct : Nat) (w : String)
    (r : RunRow) (hmem : r ∈ l)
    (hex : ∃ ru ∈ s.runs, ru.runId = r.runId)
    (hexT : ∃ tk ∈ s.tasks, tk.taskId = r.taskId) :
    runStateOf (l.foldl (markClaimed ct w) s) r.runId = some .running ∧
    runStartedAtOf (l.foldl (markClaimed ct w) s) r.runId =
      some (some (l.foldl (markClaimed ct w) s).now) ∧
    taskStateOf (l.foldl (markClaimed ct w) s) r.taskId = some .running := by
  induction l generalizing s with
  | nil => cases hmem
  | cons r2 l ih =>
    rw [List.foldl_cons]
    rcases List.mem_cons.mp hmem with rfl | hmem2
    · obtain ⟨p1, p2, p3⟩ := markClaimed_sets_running s ct w r hex hexT
      exact foldl_markClaimed_preserves l (markClaimed ct w s r) ct w r.runId r.taskId
        p1 p2 p3
    · exact ih (markClaimed ct w s r2) hmem2
        (markClaimed_keeps_run ct w s r2 r.runId hex)
        (markClaimed_keeps_task ct w s r2 r.taskId hexT)

/-- Folding the claim marks never moves the clock. -/
theorem foldl_markClaimed_now (l : List RunRow) (s : Sys) (ct : Nat) (w : String) :
    (l.foldl (markClaimed ct w) s).now = s.now := by
  induction l generalizing s with
  | nil => rfl
  | cons r l ih =>
    rw [List.foldl_cons]
    exact (ih (markClaimed ct w s r)).trans rfl

/-! ## Scenario: claiming a freshly spawned task (basic.test.ts, claim
single task / getTask and getRun return task and run state) -/

/-- State after spawning one task (queue override, unregistered name)
into a fresh installation, with symbolic params. -/
def c9Start (v : Val) : Sys :=
  spawnSys (initSys "q" []) "test-task" v ⟨some "q", none, none, none⟩

/-- The claim call of the scenario: batch size 1, timeout 60. -/
def c9Claim (v : Val) : List ClaimedTask × Sys :=
  claimTasks (c9Start v) 1 60 "test-worker"

/-- C9: a successful claim of a freshly spawned task returns exactly the
(task_id, run_id, attempt) triple produced by spawn together with the
task name and params, and afterwards the task and the run are both
running with the run's started_at stamped; and in general, for every
entry of a claim batch (over any state whose runs all have task rows),
the claimed run and its task are running afterwards with started_at set
to the claim instant. -/
theorem c9_claim_returns_spawn_triple (v : Val) :
    spawnRes (initSys "q" []) "test-task" v ⟨some "q", none, none, none⟩ = ⟨0, 1, 1⟩ ∧
    (c9Claim v).1 = [⟨0, 1, 1, "test-task", v⟩] ∧
    taskStateOf (c9Claim v).2 0 = some .running ∧
    attemptsOf (c9Claim v).2 0 = some 1 ∧
    runStateOf (c9Claim v).2 1 = some .running ∧
    runStartedAtOf (c9Claim v).2 1 = some (some 0) ∧
    (∀ (sys : Sys) (bs ct : Nat) (w : String) (c : ClaimedTask),
      (∀ ru ∈ sys.runs, ∃ tk ∈ sys.tasks, tk.taskId = ru.taskId) →
      c ∈ (claimTasks sys bs ct w).1 →
      runStateOf (claimTasks sys bs ct w).2 c.run_id = some .running ∧
      runStartedAtOf (claimTasks sys bs ct w).2 c.run_id = some (some sys.now) ∧
      taskStateOf (claimTasks sys bs ct w).2 c.task_id = some .running) := by
  refine ⟨?_, ?_, ?_, ?_, ?_, ?_, ?_⟩
  rotate_left 6
  · intro sys bs ct w c hwf hc
    simp only [claimTasks] at hc ⊢
    rcases List.mem_map.mp hc with ⟨ru, hru, hmk⟩
    have hmemruns : ru ∈ sys.runs :=
      (List.mem_filter.mp (List.take_subset _ _ hru)).1
    have hex : ∃ x ∈ sys.runs, x.runId = ru.runId := ⟨ru, hmemruns, rfl⟩
    have hexT : ∃ tk ∈ sys.tasks, tk.taskId = ru.taskId := hwf ru hmemruns
    obtain ⟨h1, h2, h3⟩ :=
      foldl_markClaimed_running ((eligibleRuns sys).take bs) sys ct w ru hru hex hexT
    have hnow := foldl_markClaimed_now ((eligibleRuns sys).take bs) sys ct w
    rw [hnow] at h2
    have hrid : c.run_id = ru.runId := by rw [← hmk]
    have htid : c.task_id = ru.taskId := by rw [← hmk]
    rw [hrid, htid]
    exact ⟨h1, h2, h3⟩
  all_goals
    simp [c9Claim, c9Start, spawnRes, claimTasks, spawnSys, spawn, spawnInto, freshTask,
      freshRun, initSys, lookupAssoc, eligibleRuns, markClaimed, claimRunUpdate,
      claimTaskUpdate, effectiveMaxAttempts, initialAvailableAt, findTaskIn, findRunIn,
      updateTask, updateRun, taskStateOf, attemptsOf, runStateOf, runStartedAtOf,
      List.filter, List.foldl]

/-- Witness for C9: the general claim-batch property applied to the
concrete single-task claim. -/
theorem c9_claim_returns_spawn_triple_witness :
    runStateOf (claimTasks (c9Start .vnull) 1 60 "test-worker").2 1 = some RState.running :=
  ((c9_claim_returns_spawn_triple .vnull).2.2.2.2.2.2 (c9Start .vnull) 1 60 "test-worker"
    ⟨0, 1, 1, "test-task", .vnull⟩ (by decide) (by decide)).1

end Absurd
